import Mathlib

/-!
Verification of `mcp-diagram-server` (walterfan/mcp-diagram-server).

This file gives a shallow embedding, in Lean 4, of the parts of the
repository that the specification claims talk about:

* the PlantUML custom base64 encoder `_plantuml_encode` and the key
  encoder `plantuml_text_to_server_key` (src/mcp_diagram_server.py,
  lines 59-86);
* the three tool-dispatch entry points: the REST handler `call_tool`
  (lines 170-205), the stdio JSON-RPC handler `handle_mcp_call_tool`
  (lines 518-571) and the HTTP JSON-RPC handler `handle_sse_call_tool`
  (lines 316-388);
* the stdio request loop `run_mcp_mode` (lines 581-625) and the HTTP
  JSON-RPC endpoint `mcp_sse_endpoint` (lines 210-272);
* the tool registry `get_tools_list` (lines 401-428) and the two schema
  builders `build_tool_schema` (mcp_diagram_server.py, lines 430-452)
  and `_build_properties_from_tool` (mcp_stdio_wrapper.py, lines 95-116).

Python `bytes` values are modelled as `List Nat` with every element
below 256; Python machine arithmetic on the bit buffer is modelled with
`Nat` and the same bitwise operators the source uses.  Renderer adapters
(`render_plantuml`, `render_graphviz`, `render_mermaid`) perform network
and subprocess I/O; they are modelled as parameters returning
`Except String (List Nat)` (an exception or the image bytes), and each
dispatcher additionally reports the list of adapter names it invoked, so
"no adapter is invoked" is expressible as that list being empty.
-/

/-! ## PlantUML custom base64 encoder (src/mcp_diagram_server.py 59-76) -/

/-- The fixed 64-character alphabet `_ENCODE_TABLE` of
src/mcp_diagram_server.py line 59. -/
def _ENCODE_TABLE : String :=
  "0123456789ABCDEFGHIJKLMNOPQRSTUVWXYZabcdefghijklmnopqrstuvwxyz-_"

/-- Indexing into `_ENCODE_TABLE`, as the Python `_ENCODE_TABLE[idx]`.
Every index produced by the encoder is masked with `&&& 0x3F`, so the
default character is never returned. -/
def tableChar (idx : Nat) : Char :=
  _ENCODE_TABLE.data.getD idx ' '

/-- The `while bit_len >= 6` loop body of `_plantuml_encode`
(src/mcp_diagram_server.py lines 69-72): as long as at least 6 bits are
buffered, emit the top 6 bits (`bit_len -= 6; idx = (bit_buf >> bit_len)
& 0x3F`).  The state is `(res, bit_buf, bit_len)`. -/
def drain : List Char → Nat → Nat → List Char × Nat × Nat
  | res, buf, len + 6 => drain (res ++ [tableChar ((buf >>> len) &&& 0x3F)]) buf len
  | res, buf, len => (res, buf, len)

/-- One iteration of the `for b in data` loop of `_plantuml_encode`
(src/mcp_diagram_server.py lines 66-72): `bit_buf = (bit_buf << 8) | b;
bit_len += 8` followed by the drain loop. -/
def encodeStep (st : List Char × Nat × Nat) (b : Nat) : List Char × Nat × Nat :=
  drain st.1 ((st.2.1 <<< 8) ||| b) (st.2.2 + 8)

/-- `_plantuml_encode` (src/mcp_diagram_server.py lines 61-76): the
custom base64 stage.  After the byte loop, if `bit_len > 0` the final
short trailing group is emitted as `(bit_buf << (6 - bit_len)) & 0x3F`. -/
def _plantuml_encode (data : List Nat) : String :=
  let st := data.foldl encodeStep ([], 0, 0)
  let res :=
    if st.2.2 > 0 then st.1 ++ [tableChar ((st.2.1 <<< (6 - st.2.2)) &&& 0x3F)]
    else st.1
  String.mk res

/-! ## Reference bit-level description (for claim C1)

The following definitions follow the specification text, not the Python
loop: "consume the bits of `d` MSB-first in groups of 6, map each 6-bit
value through the fixed alphabet, left-pad a final group of fewer than 6
bits with zero bits (shift left) before mapping". -/

/-- The `w`-bit big-endian (MSB-first) bit expansion of `n`. -/
def natToBits (n : Nat) : Nat → List Bool
  | 0 => []
  | w + 1 => decide (n / 2 ^ w % 2 = 1) :: natToBits n w

/-- The eight bits of one byte, MSB first. -/
def byteBits (b : Nat) : List Bool := natToBits b 8

/-- All bits of a byte sequence, MSB-first within each byte. -/
def bitsOf : List Nat → List Bool
  | [] => []
  | b :: bs => byteBits b ++ bitsOf bs

/-- The value of an MSB-first bit string. -/
def bitsToNat (l : List Bool) : Nat :=
  l.foldl (fun a b => 2 * a + b.toNat) 0

/-- Split a bit string into consecutive groups of 6; a final group of
fewer than 6 bits is kept as is. -/
def chunks6 : List Bool → List (List Bool)
  | [] => []
  | b0 :: b1 :: b2 :: b3 :: b4 :: b5 :: rest =>
      [b0, b1, b2, b3, b4, b5] :: chunks6 rest
  | l => [l]

/-- Pad a final group of fewer than 6 bits with zero bits at the
least-significant end (the "shift left, not right" padding the
specification describes). -/
def padTo6 (g : List Bool) : List Bool :=
  g ++ List.replicate (6 - g.length) false

/-- Reference definition of the custom base64 stage, following the
specification words of claim C1. -/
def spec_plantuml_base64 (d : List Nat) : String :=
  String.mk ((chunks6 (bitsOf d)).map (fun g => tableChar (bitsToNat (padTo6 g))))

/-! ### Sanity anchors (concrete evaluations) -/

example : _plantuml_encode [3, 0] = "0m0" := by decide
example : spec_plantuml_base64 [3, 0] = "0m0" := by decide
example : _plantuml_encode [] = "" := by decide
example : _plantuml_encode [255] = "_m" := by decide
example : spec_plantuml_base64 [255] = "_m" := by decide
example : _plantuml_encode [72, 105] = "I6a" := by decide
example : spec_plantuml_base64 [72, 105] = "I6a" := by decide

/-! ### Arithmetic facts about bit strings -/

theorem bitsToNat_foldl (l : List Bool) : ∀ a : Nat,
    l.foldl (fun a b => 2 * a + b.toNat) a = a * 2 ^ l.length + bitsToNat l := by
  induction l with
  | nil => intro a; simp [bitsToNat]
  | cons b l ih =>
      intro a
      have h1 := ih (2 * a + b.toNat)
      have h2 := ih b.toNat
      have hb : bitsToNat (b :: l) = b.toNat * 2 ^ l.length + bitsToNat l := by
        simpa [bitsToNat] using h2
      simp only [List.foldl_cons, List.length_cons, hb, h1]
      ring

theorem bitsToNat_cons (b : Bool) (l : List Bool) :
    bitsToNat (b :: l) = b.toNat * 2 ^ l.length + bitsToNat l := by
  simpa [bitsToNat] using bitsToNat_foldl l b.toNat

theorem bitsToNat_append (l₁ l₂ : List Bool) :
    bitsToNat (l₁ ++ l₂) = bitsToNat l₁ * 2 ^ l₂.length + bitsToNat l₂ := by
  simp only [bitsToNat, List.foldl_append]
  simpa [bitsToNat] using bitsToNat_foldl l₂ (bitsToNat l₁)

theorem bitsToNat_lt (l : List Bool) : bitsToNat l < 2 ^ l.length := by
  induction l with
  | nil => simp [bitsToNat]
  | cons b l ih =>
      rw [bitsToNat_cons]
      have hb : b.toNat ≤ 1 := Bool.toNat_le b
      simp only [List.length_cons]
      have h2 : 2 ^ (l.length + 1) = 2 ^ l.length + 2 ^ l.length := by
        rw [Nat.pow_succ]; ring
      have h3 : b.toNat * 2 ^ l.length ≤ 2 ^ l.length := by
        calc b.toNat * 2 ^ l.length ≤ 1 * 2 ^ l.length :=
              Nat.mul_le_mul_right _ hb
          _ = 2 ^ l.length := one_mul _
      omega

theorem natToBits_length (n : Nat) : ∀ w, (natToBits n w).length = w := by
  intro w
  induction w with
  | zero => rfl
  | succ w ih => simp [natToBits, ih]

theorem bitsToNat_natToBits (n : Nat) : ∀ w, bitsToNat (natToBits n w) = n % 2 ^ w := by
  intro w
  induction w with
  | zero => simp [natToBits, bitsToNat, Nat.mod_one]
  | succ w ih =>
      rw [natToBits, bitsToNat_cons, natToBits_length, ih, Nat.mod_pow_succ]
      have hm : n / 2 ^ w % 2 = 0 ∨ n / 2 ^ w % 2 = 1 := by omega
      rcases hm with hm | hm
      · simp [hm]
      · simp [hm]; omega

theorem natToBits_congr (m n : Nat) : ∀ w, (∀ j, j < w → m / 2 ^ j % 2 = n / 2 ^ j % 2) →
    natToBits m w = natToBits n w := by
  intro w
  induction w with
  | zero => intro _; rfl
  | succ w ih =>
      intro h
      rw [natToBits, natToBits, h w (Nat.lt_succ_self w),
        ih (fun j hj => h j (Nat.lt_succ_of_lt hj))]

theorem natToBits_mod (n k : Nat) : natToBits (n % 2 ^ k) k = natToBits n k := by
  refine natToBits_congr _ _ k (fun j hj => ?_)
  obtain ⟨d, rfl⟩ : ∃ d, k = j + (d + 1) := ⟨k - j - 1, by omega⟩
  have hsplit : (2 : Nat) ^ (j + (d + 1)) = 2 ^ j * 2 ^ (d + 1) := by
    rw [pow_add]
  rw [hsplit, Nat.mod_mul_right_div_self]
  exact Nat.mod_mod_of_dvd _ (dvd_pow_self 2 (Nat.succ_ne_zero d))

theorem natToBits_mul_add (a b k : Nat) (hb : b < 2 ^ k) :
    ∀ w, natToBits (2 ^ k * a + b) (w + k) = natToBits a w ++ natToBits b k := by
  intro w
  induction w with
  | zero =>
      simp only [Nat.zero_add, natToBits, List.nil_append]
      refine natToBits_congr _ _ k (fun j hj => ?_)
      obtain ⟨d, rfl⟩ : ∃ d, k = j + (d + 1) := ⟨k - j - 1, by omega⟩
      have hsplit : (2 : Nat) ^ (j + (d + 1)) * a = 2 ^ (d + 1) * a * 2 ^ j := by
        rw [pow_add]; ring
      rw [hsplit, Nat.add_comm, Nat.add_mul_div_right _ _ (Nat.pos_pow_of_pos j (by omega))]
      have : (2 : Nat) ^ (d + 1) * a = 2 * (2 ^ d * a) := by rw [pow_succ]; ring
      omega
  | succ w ih =>
      have harr : w + 1 + k = (w + k) + 1 := by omega
      rw [harr, natToBits, natToBits]
      have hhead : (2 ^ k * a + b) / 2 ^ (w + k) = a / 2 ^ w := by
        have h1 : (2 ^ k * a + b) / 2 ^ k = a := by
          rw [Nat.add_comm, Nat.mul_comm,
            Nat.add_mul_div_right _ _ (Nat.pos_pow_of_pos k (by omega)),
            Nat.div_eq_of_lt hb]
          omega
        have h2 : (2 : Nat) ^ (w + k) = 2 ^ k * 2 ^ w := by rw [pow_add]; ring
        rw [h2, ← Nat.div_div_eq_div_mul, h1]
      rw [hhead, ih, List.cons_append]

theorem natToBits_peel (n k : Nat) :
    natToBits n (k + 6) = natToBits (n / 2 ^ k) 6 ++ natToBits n k := by
  have hd : 2 ^ k * (n / 2 ^ k) + n % 2 ^ k = n := Nat.div_add_mod n (2 ^ k)
  have hb : n % 2 ^ k < 2 ^ k := Nat.mod_lt _ (Nat.pos_pow_of_pos k (by omega))
  have h := natToBits_mul_add (n / 2 ^ k) (n % 2 ^ k) k hb 6
  rw [hd, natToBits_mod] at h
  rw [show k + 6 = 6 + k from by omega, h]

/-! ### Complete 6-bit groups and the short trailing group -/

/-- The complete 6-bit groups of a bit string (the trailing group of
fewer than 6 bits is discarded). -/
def chunksFull : List Bool → List (List Bool)
  | b0 :: b1 :: b2 :: b3 :: b4 :: b5 :: rest =>
      [b0, b1, b2, b3, b4, b5] :: chunksFull rest
  | _ => []

/-- The trailing group of fewer than 6 bits of a bit string. -/
def leftoverBits : List Bool → List Bool
  | _ :: _ :: _ :: _ :: _ :: _ :: rest => leftoverBits rest
  | l => l

/-- The character emitted for one 6-bit group. -/
def encChar (g : List Bool) : Char := tableChar (bitsToNat g)

theorem chunksFull_short (l : List Bool) (h : l.length < 6) : chunksFull l = [] := by
  rcases l with _ | ⟨a, _ | ⟨b, _ | ⟨c, _ | ⟨d, _ | ⟨e, _ | ⟨f, rest⟩⟩⟩⟩⟩⟩
  · rfl
  · rfl
  · rfl
  · rfl
  · rfl
  · rfl
  · simp at h; omega

theorem leftoverBits_short (l : List Bool) (h : l.length < 6) : leftoverBits l = l := by
  rcases l with _ | ⟨a, _ | ⟨b, _ | ⟨c, _ | ⟨d, _ | ⟨e, _ | ⟨f, rest⟩⟩⟩⟩⟩⟩
  · rfl
  · rfl
  · rfl
  · rfl
  · rfl
  · rfl
  · simp at h; omega

theorem chunksFull_append (l : List Bool) :
    ∀ m, chunksFull (l ++ m) = chunksFull l ++ chunksFull (leftoverBits l ++ m) := by
  induction l using chunksFull.induct with
  | case1 b0 b1 b2 b3 b4 b5 rest ih =>
      intro m
      simp only [List.cons_append, chunksFull, leftoverBits, List.append_eq, ih m,
        List.cons_append]
  | case2 l h =>
      intro m
      rcases l with _ | ⟨a, _ | ⟨b, _ | ⟨c, _ | ⟨d, _ | ⟨e, _ | ⟨f, rest⟩⟩⟩⟩⟩⟩
      · rfl
      · rfl
      · rfl
      · rfl
      · rfl
      · rfl
      · exact absurd rfl (h a b c d e f rest)

theorem leftoverBits_append (l : List Bool) :
    ∀ m, leftoverBits (l ++ m) = leftoverBits (leftoverBits l ++ m) := by
  induction l using leftoverBits.induct with
  | case1 b0 b1 b2 b3 b4 b5 rest ih =>
      intro m
      simp only [List.cons_append, leftoverBits, List.append_eq, ih m]
  | case2 l h =>
      intro m
      rcases l with _ | ⟨a, _ | ⟨b, _ | ⟨c, _ | ⟨d, _ | ⟨e, _ | ⟨f, rest⟩⟩⟩⟩⟩⟩
      · rfl
      · rfl
      · rfl
      · rfl
      · rfl
      · rfl
      · exact absurd rfl (h a b c d e f rest)

theorem leftoverBits_length (l : List Bool) : (leftoverBits l).length = l.length % 6 := by
  induction l using leftoverBits.induct with
  | case1 b0 b1 b2 b3 b4 b5 rest ih =>
      simp only [leftoverBits, ih, List.length_cons]
      omega
  | case2 l h =>
      rcases l with _ | ⟨a, _ | ⟨b, _ | ⟨c, _ | ⟨d, _ | ⟨e, _ | ⟨f, rest⟩⟩⟩⟩⟩⟩
      · rfl
      · rfl
      · rfl
      · rfl
      · rfl
      · rfl
      · exact absurd rfl (h a b c d e f rest)

theorem leftoverBits_natToBits (n : Nat) : ∀ w, leftoverBits (natToBits n w) = natToBits n (w % 6) := by
  intro w
  induction w using Nat.strong_induction_on with
  | _ w ih =>
      by_cases h6 : w < 6
      · rw [leftoverBits_short _ (by rw [natToBits_length]; omega), Nat.mod_eq_of_lt h6]
      · obtain ⟨k, rfl⟩ : ∃ k, w = k + 6 := ⟨w - 6, by omega⟩
        rw [natToBits_peel]
        have hstep : leftoverBits (natToBits (n / 2 ^ k) 6 ++ natToBits n k) =
            leftoverBits (natToBits n k) := rfl
        rw [hstep, ih k (by omega), Nat.add_mod_right]

theorem chunksFull_mem_length (l : List Bool) :
    ∀ g, g ∈ chunksFull l → g.length = 6 := by
  induction l using chunksFull.induct with
  | case1 b0 b1 b2 b3 b4 b5 rest ih =>
      intro g hg
      rw [chunksFull] at hg
      rcases List.mem_cons.mp hg with h | h
      · rw [h]; rfl
      · exact ih g h
  | case2 l h =>
      intro g hg
      rcases l with _ | ⟨a, _ | ⟨b, _ | ⟨c, _ | ⟨d, _ | ⟨e, _ | ⟨f, rest⟩⟩⟩⟩⟩⟩
      · simp [chunksFull] at hg
      · simp [chunksFull] at hg
      · simp [chunksFull] at hg
      · simp [chunksFull] at hg
      · simp [chunksFull] at hg
      · simp [chunksFull] at hg
      · exact absurd rfl (h a b c d e f rest)

/-! ### The drain loop emits exactly the complete 6-bit groups -/

theorem drain_of_lt (res : List Char) (buf : Nat) :
    ∀ len, len < 6 → drain res buf len = (res, buf, len) := by
  intro len h
  rcases len with _ | (_ | (_ | (_ | (_ | (_ | m)))))
  · rfl
  · rfl
  · rfl
  · rfl
  · rfl
  · rfl
  · omega

theorem and_63_eq_mod (x : Nat) : x &&& 0x3F = x % 64 := by
  have h := Nat.and_pow_two_sub_one_eq_mod x 6
  norm_num at h
  exact h

theorem drain_spec (len : Nat) : ∀ res buf,
    drain res buf len =
      (res ++ (chunksFull (natToBits buf len)).map encChar, buf, len % 6) := by
  induction len using Nat.strong_induction_on with
  | _ len ih =>
      intro res buf
      by_cases h6 : len < 6
      · rw [drain_of_lt _ _ _ h6,
          chunksFull_short _ (by rw [natToBits_length]; omega),
          Nat.mod_eq_of_lt h6]
        simp
      · obtain ⟨k, rfl⟩ : ∃ k, len = k + 6 := ⟨len - 6, by omega⟩
        have hstep : drain res buf (k + 6) =
            drain (res ++ [tableChar ((buf >>> k) &&& 0x3F)]) buf k := rfl
        rw [hstep, ih k (by omega)]
        have hbits : chunksFull (natToBits buf (k + 6)) =
            natToBits (buf / 2 ^ k) 6 :: chunksFull (natToBits buf k) := by
          rw [natToBits_peel]; rfl
        have hchar : tableChar ((buf >>> k) &&& 0x3F) = encChar (natToBits (buf / 2 ^ k) 6) := by
          rw [encChar, bitsToNat_natToBits, Nat.shiftRight_eq_div_pow, and_63_eq_mod]
          norm_num
        rw [hbits, List.map_cons, hchar, Nat.add_mod_right]
        simp

/-! ### The byte loop of the encoder -/

theorem foldl_encodeStep_spec (bs : List Nat) : (∀ b ∈ bs, b < 256) →
    ∀ (res : List Char) (buf len : Nat), len < 6 →
    ∃ buf', bs.foldl encodeStep (res, buf, len) =
        (res ++ (chunksFull (natToBits buf len ++ bitsOf bs)).map encChar, buf',
          (len + 8 * bs.length) % 6) ∧
      natToBits buf' ((len + 8 * bs.length) % 6) =
        leftoverBits (natToBits buf len ++ bitsOf bs) := by
  induction bs with
  | nil =>
      intro _ res buf len hlen
      refine ⟨buf, ?_, ?_⟩
      · simp only [List.foldl_nil, bitsOf, List.append_nil, List.length_nil]
        rw [chunksFull_short _ (by rw [natToBits_length]; omega),
          show (len + 8 * 0) % 6 = len from by omega]
        simp
      · simp only [bitsOf, List.append_nil, List.length_nil]
        rw [leftoverBits_short _ (by rw [natToBits_length]; omega),
          show (len + 8 * 0) % 6 = len from by omega]
  | cons b bs ih =>
      intro hb res buf len hlen
      have hb256 : b < 256 := hb b (List.mem_cons_self b bs)
      have hb2 : b < 2 ^ 8 := by omega
      have hbs : ∀ x ∈ bs, x < 256 := fun x hx => hb x (List.mem_cons_of_mem b hx)
      have hbuf2 : (buf <<< 8) ||| b = 2 ^ 8 * buf + b := by
        rw [Nat.shiftLeft_eq, Nat.mul_comm]
        exact (Nat.mul_add_lt_is_or hb2 buf).symm
      have hsplitbits : natToBits ((buf <<< 8) ||| b) (len + 8) =
          natToBits buf len ++ byteBits b := by
        rw [hbuf2]
        exact natToBits_mul_add buf b 8 hb2 len
      have hstep : encodeStep (res, buf, len) b =
          (res ++ (chunksFull (natToBits buf len ++ byteBits b)).map encChar,
            (buf <<< 8) ||| b, (len + 8) % 6) := by
        have h0 : encodeStep (res, buf, len) b = drain res ((buf <<< 8) ||| b) (len + 8) := rfl
        rw [h0, drain_spec, hsplitbits]
      have hA : natToBits ((buf <<< 8) ||| b) ((len + 8) % 6) =
          leftoverBits (natToBits buf len ++ byteBits b) := by
        have h := leftoverBits_natToBits ((buf <<< 8) ||| b) (len + 8)
        rw [hsplitbits] at h
        exact h.symm
      rw [List.foldl_cons, hstep]
      obtain ⟨buf', h1, h2⟩ :=
        ih hbs (res ++ (chunksFull (natToBits buf len ++ byteBits b)).map encChar)
          ((buf <<< 8) ||| b) ((len + 8) % 6) (Nat.mod_lt _ (by omega))
      refine ⟨buf', ?_, ?_⟩
      · rw [h1, hA]
        simp only [bitsOf, List.length_cons]
        rw [← List.append_assoc (natToBits buf len) (byteBits b) (bitsOf bs),
          chunksFull_append (natToBits buf len ++ byteBits b) (bitsOf bs),
          List.map_append, ← List.append_assoc,
          show ((len + 8) % 6 + 8 * bs.length) % 6 = (len + 8 * (bs.length + 1)) % 6
            from by omega]
      · rw [hA] at h2
        rw [← leftoverBits_append] at h2
        simp only [bitsOf, List.length_cons]
        rw [show (len + 8 * (bs.length + 1)) % 6 = ((len + 8) % 6 + 8 * bs.length) % 6
            from by omega,
          ← List.append_assoc (natToBits buf len) (byteBits b) (bitsOf bs)]
        exact h2

/-! ### Relating the reference groups to complete groups plus leftover -/

theorem chunks6_eq (l : List Bool) :
    chunks6 l = chunksFull l ++ (if leftoverBits l = [] then [] else [leftoverBits l]) := by
  induction l using chunks6.induct with
  | case1 => rfl
  | case2 b0 b1 b2 b3 b4 b5 rest ih =>
      simp only [chunks6, chunksFull, leftoverBits, ih, List.cons_append]
  | case3 l h1 h2 =>
      rcases l with _ | ⟨a, _ | ⟨b, _ | ⟨c, _ | ⟨d, _ | ⟨e, _ | ⟨f, rest⟩⟩⟩⟩⟩⟩
      · exact absurd rfl h1
      · simp [chunks6, chunksFull, leftoverBits]
      · simp [chunks6, chunksFull, leftoverBits]
      · simp [chunks6, chunksFull, leftoverBits]
      · simp [chunks6, chunksFull, leftoverBits]
      · simp [chunks6, chunksFull, leftoverBits]
      · exact absurd rfl (h2 a b c d e f rest)

theorem chunks6_length (l : List Bool) : (chunks6 l).length = (l.length + 5) / 6 := by
  induction l using chunks6.induct with
  | case1 => rfl
  | case2 b0 b1 b2 b3 b4 b5 rest ih =>
      simp only [chunks6, List.length_cons, ih]
      omega
  | case3 l h1 h2 =>
      rcases l with _ | ⟨a, _ | ⟨b, _ | ⟨c, _ | ⟨d, _ | ⟨e, _ | ⟨f, rest⟩⟩⟩⟩⟩⟩
      · exact absurd rfl h1
      · simp [chunks6]
      · simp [chunks6]
      · simp [chunks6]
      · simp [chunks6]
      · simp [chunks6]
      · exact absurd rfl (h2 a b c d e f rest)

theorem bitsOf_length (d : List Nat) : (bitsOf d).length = 8 * d.length := by
  induction d with
  | nil => rfl
  | cons b bs ih =>
      simp only [bitsOf, List.length_append, byteBits, natToBits_length, ih,
        List.length_cons]
      omega

theorem bitsToNat_replicate_false : ∀ k, bitsToNat (List.replicate k false) = 0 := by
  intro k
  induction k with
  | zero => rfl
  | succ k ih =>
      rw [List.replicate_succ, bitsToNat_cons, ih]
      simp

theorem tableChar_mem : ∀ i, i < 64 → tableChar i ∈ _ENCODE_TABLE.data := by decide

theorem padTo6_full (g : List Bool) (h : g.length = 6) : padTo6 g = g := by
  simp [padTo6, h]

/-! ### The encoder agrees with the reference definition -/

theorem _plantuml_encode_eq_spec (d : List Nat) (hd : ∀ b ∈ d, b < 256) :
    _plantuml_encode d = spec_plantuml_base64 d := by
  obtain ⟨buf', h1, h2⟩ := foldl_encodeStep_spec d hd [] 0 0 (by omega)
  simp only [natToBits, List.nil_append, Nat.zero_add] at h1 h2
  have hmapfull : (chunksFull (bitsOf d)).map
        (fun g => tableChar (bitsToNat (padTo6 g))) =
      (chunksFull (bitsOf d)).map encChar := by
    refine List.map_congr_left (fun g hg => ?_)
    rw [padTo6_full g (chunksFull_mem_length _ g hg)]
    rfl
  have hlolen : (leftoverBits (bitsOf d)).length = 8 * d.length % 6 := by
    rw [leftoverBits_length, bitsOf_length]
  rw [_plantuml_encode, spec_plantuml_base64, h1, chunks6_eq, List.map_append, hmapfull]
  by_cases hz : 8 * d.length % 6 = 0
  · have hlo : leftoverBits (bitsOf d) = [] :=
      List.eq_nil_of_length_eq_zero (by rw [hlolen, hz])
    rw [hlo]
    simp [hz]
  · have hlo : leftoverBits (bitsOf d) ≠ [] := by
      intro hc
      rw [hc] at hlolen
      simp at hlolen
      omega
    rw [if_neg hlo, if_pos (by omega : 8 * d.length % 6 > 0)]
    simp only [List.map_cons, List.map_nil]
    have hidx : (buf' <<< (6 - 8 * d.length % 6)) &&& 0x3F =
        bitsToNat (padTo6 (leftoverBits (bitsOf d))) := by
      have hlt : 8 * d.length % 6 < 6 := Nat.mod_lt _ (by omega)
      have h64 : (64 : Nat) = 2 ^ (8 * d.length % 6) * 2 ^ (6 - 8 * d.length % 6) := by
        rw [← pow_add, show 8 * d.length % 6 + (6 - 8 * d.length % 6) = 6 from by omega]
        norm_num
      rw [Nat.shiftLeft_eq, and_63_eq_mod, h64, Nat.mul_mod_mul_right]
      rw [padTo6, bitsToNat_append, bitsToNat_replicate_false, List.length_replicate,
        hlolen, ← h2, bitsToNat_natToBits]
      omega
    rw [hidx]

/-! ### Every emitted character comes from the alphabet (for any input) -/

theorem foldl_encodeStep_chars (bs : List Nat) :
    ∀ st : List Char × Nat × Nat, (∀ c ∈ st.1, c ∈ _ENCODE_TABLE.data) →
    ∀ c ∈ (bs.foldl encodeStep st).1, c ∈ _ENCODE_TABLE.data := by
  induction bs with
  | nil => exact fun st h c hc => h c hc
  | cons b bs ih =>
      intro st h
      rw [List.foldl_cons]
      apply ih
      rcases st with ⟨res, buf, len⟩
      have h0 : encodeStep (res, buf, len) b = drain res ((buf <<< 8) ||| b) (len + 8) := rfl
      rw [h0, drain_spec]
      intro c hc
      rcases List.mem_append.mp hc with h1 | h1
      · exact h c h1
      · obtain ⟨g, hg, rfl⟩ := List.mem_map.mp h1
        have hg6 := chunksFull_mem_length _ g hg
        have hlt := bitsToNat_lt g
        rw [hg6] at hlt
        exact tableChar_mem _ (by norm_num at hlt; omega)

theorem encode_chars_mem (data : List Nat) :
    ∀ c ∈ (_plantuml_encode data).data, c ∈ _ENCODE_TABLE.data := by
  intro c hc
  rw [_plantuml_encode] at hc
  set st := data.foldl encodeStep ([], 0, 0) with hst
  have hfold : ∀ c ∈ st.1, c ∈ _ENCODE_TABLE.data := by
    rw [hst]
    exact foldl_encodeStep_chars data ([], 0, 0) (by simp)
  by_cases hz : st.2.2 > 0
  · simp only [hz, if_pos] at hc
    rcases List.mem_append.mp hc with h1 | h1
    · exact hfold c h1
    · have := List.mem_singleton.mp h1
      subst this
      refine tableChar_mem _ ?_
      have hle : (st.2.1 <<< (6 - st.2.2)) &&& 0x3F ≤ 0x3F := Nat.and_le_right
      omega
  · simp only [hz, if_neg, not_false_iff] at hc
    exact hfold c hc

theorem encode_length (d : List Nat) (hd : ∀ b ∈ d, b < 256) :
    (_plantuml_encode d).length = (8 * d.length + 5) / 6 := by
  rw [_plantuml_encode_eq_spec d hd, spec_plantuml_base64]
  show (String.mk _).data.length = _
  rw [List.length_map, chunks6_length, bitsOf_length]

/-- C1: for every byte sequence `d`, the custom base64 stage
`_plantuml_encode` equals the reference definition (bits consumed
MSB-first in groups of 6, each 6-bit value mapped through
`_ENCODE_TABLE`, a final short group padded with zero bits by a left
shift), emits no `=` padding, and produces output of length
`ceil(8 * |d| / 6)` drawn only from the 64-character alphabet. -/
theorem c1_plantuml_encode_correct (d : List Nat) (hd : ∀ b ∈ d, b < 256) :
    _plantuml_encode d = spec_plantuml_base64 d ∧
    (_plantuml_encode d).length = (8 * d.length + 5) / 6 ∧
    (∀ c ∈ (_plantuml_encode d).data, c ∈ _ENCODE_TABLE.data) ∧
    '=' ∉ (_plantuml_encode d).data :=
  ⟨_plantuml_encode_eq_spec d hd, encode_length d hd, encode_chars_mem d,
    fun hc => by
      have := encode_chars_mem d '=' hc
      revert this
      decide⟩

/-- Witness for C1 at the concrete byte sequence `[1, 255]`. -/
theorem c1_plantuml_encode_correct_witness :
    (∀ b ∈ [1, 255], b < 256) ∧
    (_plantuml_encode [1, 255] = spec_plantuml_base64 [1, 255] ∧
      (_plantuml_encode [1, 255]).length = (8 * 2 + 5) / 6 ∧
      (∀ c ∈ (_plantuml_encode [1, 255]).data, c ∈ _ENCODE_TABLE.data) ∧
      '=' ∉ (_plantuml_encode [1, 255]).data) :=
  ⟨by decide, c1_plantuml_encode_correct [1, 255] (by decide)⟩

/-! ## The key encoder `plantuml_text_to_server_key`
(src/mcp_diagram_server.py 79-86) -/

/-- UTF-8 encoding of one character (the byte sequence Python
`str.encode` with the utf-8 codec produces for it). -/
def charUtf8 (c : Char) : List Nat :=
  let n := c.toNat
  if n < 0x80 then [n]
  else if n < 0x800 then [0xC0 ||| (n >>> 6), 0x80 ||| (n &&& 0x3F)]
  else if n < 0x10000 then
    [0xE0 ||| (n >>> 12), 0x80 ||| ((n >>> 6) &&& 0x3F), 0x80 ||| (n &&& 0x3F)]
  else
    [0xF0 ||| (n >>> 18), 0x80 ||| ((n >>> 12) &&& 0x3F),
      0x80 ||| ((n >>> 6) &&& 0x3F), 0x80 ||| (n &&& 0x3F)]

/-- UTF-8 encoding of a character list. -/
def utf8BytesAux : List Char → List Nat
  | [] => []
  | c :: cs => charUtf8 c ++ utf8BytesAux cs

/-- UTF-8 encoding of a string (Python `text.encode` with utf-8). -/
def utf8Bytes (s : String) : List Nat := utf8BytesAux s.data

/-- Modelled from the spec: `plantuml_text_to_server_key` delegates
compression to the external zlib library (`zlib.compressobj` at level 9
with `wbits=-15`, i.e. raw DEFLATE), code that is not part of this
repository.  The DEFLATE format (RFC 1951) requires every stream to
contain at least one block, so for empty input the compressor emits a
single final fixed-Huffman block holding only the end-of-block code:
the two bytes 0x03 0x00.  Only this empty-input value is used by any
theorem below; on non-empty input this model is a stand-in (real zlib
output depends on its match-finding algorithm) and no theorem evaluates
it there. -/
def zlibRawDeflate (bs : List Nat) : List Nat :=
  if bs = [] then [3, 0] else bs

/-- `plantuml_text_to_server_key` (src/mcp_diagram_server.py lines
79-86): UTF-8 encode the text, compress it with raw DEFLATE (performed
by the external zlib library, here passed as a parameter), and apply
the custom base64 stage.  The Python function also computes
`zlib.compress(...)` into a local `compressed` that is never used; it
does not affect the result and is not modelled. -/
def plantuml_text_to_server_key (deflate : List Nat → List Nat) (text : String) : String :=
  _plantuml_encode (deflate (utf8Bytes text))

/-- C2 counterexample: on the empty input string the compressed stream
is the two-byte empty DEFLATE block `0x03 0x00`, so
`plantuml_text_to_server_key` returns the three-character key "0m0",
not the empty string. -/
theorem c2_empty_input_counterexample :
    plantuml_text_to_server_key zlibRawDeflate "" ≠ "" := by decide

/-- C2 amended: for the empty input string the raw DEFLATE stream is
`[0x03, 0x00]` and the key encoder returns "0m0" (a nonempty string);
the custom base64 stage itself does map an empty byte stream to the
empty output. -/
theorem c2_empty_input_amended :
    plantuml_text_to_server_key zlibRawDeflate "" = "0m0" ∧
    zlibRawDeflate (utf8Bytes "") = [3, 0] ∧
    _plantuml_encode [] = "" := by
  refine ⟨by decide, by decide, rfl⟩

/-- C7: the key encoder is a deterministic function of the input text
alone (given the pinned deflate implementation): two runs on equal
texts return the identical string, whose characters are all drawn from
the 64-character alphabet, with no `=` padding. -/
theorem c7_encoder_deterministic (deflate : List Nat → List Nat) (s t : String)
    (h : s = t) :
    plantuml_text_to_server_key deflate s = plantuml_text_to_server_key deflate t ∧
    (∀ c ∈ (plantuml_text_to_server_key deflate s).data, c ∈ _ENCODE_TABLE.data) ∧
    '=' ∉ (plantuml_text_to_server_key deflate s).data := by
  subst h
  refine ⟨rfl, fun c hc => encode_chars_mem _ c hc, fun hc => ?_⟩
  have hmem := encode_chars_mem _ '=' hc
  revert hmem
  decide

/-- Witness for C7 at the empty string and the modelled deflate. -/
theorem c7_encoder_deterministic_witness :
    plantuml_text_to_server_key zlibRawDeflate "" =
      plantuml_text_to_server_key zlibRawDeflate "" ∧
    (∀ c ∈ (plantuml_text_to_server_key zlibRawDeflate "").data,
      c ∈ _ENCODE_TABLE.data) ∧
    '=' ∉ (plantuml_text_to_server_key zlibRawDeflate "").data :=
  c7_encoder_deterministic zlibRawDeflate "" "" rfl

/-! ## Tool dispatch (three transports)

The renderer adapters perform network and subprocess I/O, so they are
parameters of the dispatchers: each adapter takes the diagram text and
the format and either returns image bytes or raises (`Except.error`
models a raised Python exception, carrying `str(e)`).  Each dispatcher
returns its response together with the list of adapter names it
invoked. -/

/-- A renderer adapter: text and format to image bytes or an exception. -/
abbrev RenderFn := String → String → Except String (List Nat)

/-- The three renderer adapters `render_plantuml`, `render_graphviz`,
`render_mermaid` (src/mcp_diagram_server.py lines 90-155). -/
structure Renderers where
  render_plantuml : RenderFn
  render_graphviz : RenderFn
  render_mermaid : RenderFn

/-- A `tools/call` arguments mapping; only string-valued arguments are
modelled (the two keys the dispatchers read, `text` and `format`, are
strings in every descriptor). -/
abbrev Args := List (String × String)

/-- Python `arguments.get(k)`: the value at key `k`, if present. -/
def getArg (args : Args) (k : String) : Option String :=
  (args.find? (fun p => p.1 == k)).map (fun p => p.2)

/-- Embeds `text = arguments.get("text")` followed by the truthiness
test `if not text:` of every dispatcher: a missing key and the empty
string are both falsy, so `none` is returned for both. -/
def getTruthyText (args : Args) : Option String :=
  match getArg args "text" with
  | none => none
  | some t => if t = "" then none else some t

/-- Python `arguments.get("format", dflt)`. -/
def getFormatArg (args : Args) (dflt : String) : String :=
  (getArg args "format").getD dflt

/-- The content-type selection `"image/svg+xml" if fmt == "svg" else
"image/png"` used by every dispatcher. -/
def contentTypeOf (fmt : String) : String :=
  if fmt = "svg" then "image/svg+xml" else "image/png"

/-- Response of the REST `/call_tool` endpoint: a raised
`HTTPException(status, detail)`, a 200 body with `ok: true` carrying
the base64 of the returned bytes, or a 200 body with `ok: false` and an
error string. -/
inductive RestOut where
  | httpError (status : Nat) (detail : String)
  | okTrue (content_type : String) (imageBytes : List Nat)
  | okFalse (error : String)

/-- The REST dispatcher `call_tool` (src/mcp_diagram_server.py lines
170-205).  An `HTTPException` raised inside the `try` block is
re-raised by `except HTTPException: raise`; any other exception is
turned into `{"ok": False, "error": str(e)}`.  The second component
lists the adapters invoked. -/
def call_tool (r : Renderers) (name : String) (args : Args) : RestOut × List String :=
  if name = "plantuml.render" then
    match getTruthyText args with
    | none => (.httpError 400 "text is required", [])
    | some text =>
      let fmt := getFormatArg args "svg"
      match r.render_plantuml text fmt with
      | .ok data => (.okTrue (contentTypeOf fmt) data, ["render_plantuml"])
      | .error e => (.okFalse e, ["render_plantuml"])
  else if name = "graphviz.render" then
    match getTruthyText args with
    | none => (.httpError 400 "text is required", [])
    | some text =>
      let fmt := getFormatArg args "png"
      match r.render_graphviz text fmt with
      | .ok data => (.okTrue (contentTypeOf fmt) data, ["render_graphviz"])
      | .error e => (.okFalse e, ["render_graphviz"])
  else if name = "mermaid.render" then
    match getTruthyText args with
    | none => (.httpError 400 "text is required", [])
    | some text =>
      let fmt := getFormatArg args "png"
      match r.render_mermaid text fmt with
      | .ok data => (.okTrue (contentTypeOf fmt) data, ["render_mermaid"])
      | .error e => (.okFalse e, ["render_mermaid"])
  else
    (.httpError 404 "tool not found", [])

/-! ## Tool registry and schema builders -/

/-- One entry of the tool registry (name, description, argument name to
argument description). -/
structure ToolDescriptor where
  name : String
  description : String
  arguments : List (String × String)

/-- The static tool registry `get_tools_list`
(src/mcp_diagram_server.py lines 401-428). -/
def get_tools_list : List ToolDescriptor :=
  [ ⟨"plantuml.render", "Render PlantUML diagram text to image",
      [ ("text", "string (PlantUML script)"),
        ("format", "string, \x27svg\x27 or \x27png\x27 (optional, default \x27svg\x27)") ]⟩,
    ⟨"graphviz.render", "Render Graphviz DOT source to image",
      [ ("text", "string (Graphviz DOT source)"),
        ("format", "string, \x27png\x27 or \x27svg\x27 (optional, default \x27png\x27)") ]⟩,
    ⟨"mermaid.render", "Render Mermaid diagram to image",
      [ ("text", "string (Mermaid source)"),
        ("format", "string, \x27png\x27 or \x27svg\x27 (optional, default \x27png\x27)") ]⟩ ]

/-- Is `needle` an initial segment of the second list? -/
def listIsPre : List Char → List Char → Bool
  | [], _ => true
  | _ :: _, [] => false
  | a :: as, b :: bs => a == b && listIsPre as bs

/-- Does `needle` occur as a contiguous sublist? -/
def listHasSub (needle : List Char) : List Char → Bool
  | [] => listIsPre needle []
  | b :: bs => listIsPre needle (b :: bs) || listHasSub needle bs

/-- Python substring containment `sub in s`. -/
def strContains (s sub : String) : Bool := listHasSub sub.data s.data

/-- Python `str.lower()`, character by character (identical to it on
the ASCII descriptions the registry holds). -/
def strToLower (s : String) : String := String.mk (s.data.map Char.toLower)

/-- The type-inference step of `build_tool_schema`
(src/mcp_diagram_server.py lines 436-445), written as a function of one
(argument name, description) pair; the Python code inlines this in its
loop body.  It lowercases the description and, in the first branch,
additionally forces type "string" for any argument named "format". -/
def serverInferType (argName argDesc : String) : String :=
  let descStr := strToLower argDesc
  if strContains descStr "string" || argName == "format" then "string"
  else if strContains descStr "int" || strContains descStr "number" then "number"
  else if strContains descStr "bool" then "boolean"
  else "string"

/-- One property of a JSON-schema `properties` object. -/
structure ArgSchema where
  argType : String
  description : String

/-- `build_tool_schema` (src/mcp_diagram_server.py lines 430-452). -/
def build_tool_schema (tool : ToolDescriptor) : List (String × ArgSchema) :=
  tool.arguments.map (fun p => (p.1, ⟨serverInferType p.1 p.2, p.2⟩))

/-- The type-inference step of `_build_properties_from_tool`
(src/mcp_stdio_wrapper.py lines 100-109): same vocabulary rule on the
lowercased description, without the "format" special case. -/
def wrapperInferType (argDesc : String) : String :=
  if strContains (strToLower argDesc) "string" then "string"
  else if strContains (strToLower argDesc) "int" || strContains (strToLower argDesc) "number" then
    "number"
  else if strContains (strToLower argDesc) "bool" then "boolean"
  else "string"

/-- `_build_properties_from_tool` (src/mcp_stdio_wrapper.py lines
95-116). -/
def _build_properties_from_tool (tool : ToolDescriptor) : List (String × ArgSchema) :=
  tool.arguments.map (fun p => (p.1, ⟨wrapperInferType p.2, p.2⟩))

/-- The type-assignment rule exactly as claim C9 states it: a function
of the description string vocabulary alone ("string" wins, then
"int"/"number", then "bool", default "string"). -/
def specArgType (desc : String) : String :=
  if strContains desc "string" then "string"
  else if strContains desc "int" || strContains desc "number" then "number"
  else if strContains desc "bool" then "boolean"
  else "string"

/-! ## JSON-RPC responses (stdio and HTTP JSON-RPC transports)

`ι` is the type of JSON-RPC request ids (`request.get("id")` returns
`None` when absent, modelled by `Option ι`). -/

/-- A tool entry of a `tools/list` result: name, description and the
`inputSchema` properties object. -/
structure McpTool where
  name : String
  description : String
  properties : List (String × ArgSchema)

/-- A single JSON-RPC response object, as written by
`write_mcp_response` / `write_mcp_error` on stdio or returned by the
SSE handlers: an `initialize` result, a `tools/list` result, a
`tools/call` content result (text note plus base64 image), a `ping`
result (`{}`), or an error object (code, message, optional data). -/
inductive RpcMsg (ι : Type) where
  | initRes (id : Option ι) (protocolVersion serverName serverVersion : String)
  | toolsRes (id : Option ι) (tools : List McpTool)
  | callRes (id : Option ι) (note : String) (mimeType : String) (imageBytes : List Nat)
  | pingRes (id : Option ι)
  | errRes (id : Option ι) (code : Int) (message : String) (errData : Option String)

/-- `handle_mcp_call_tool` (src/mcp_diagram_server.py lines 518-571):
the stdio `tools/call` dispatcher.  Each path writes exactly one
response; the written response is returned, together with the adapters
invoked. -/
def handle_mcp_call_tool {ι : Type} (r : Renderers) (request_id : Option ι)
    (name : String) (args : Args) : RpcMsg ι × List String :=
  if name = "plantuml.render" then
    match getTruthyText args with
    | none =>
        (.errRes request_id (-32602) "text is required for plantuml.render" none, [])
    | some text =>
      let fmt := getFormatArg args "svg"
      match r.render_plantuml text fmt with
      | .ok data =>
          (.callRes request_id ("Diagram rendered successfully as " ++ contentTypeOf fmt)
            (contentTypeOf fmt) data, ["render_plantuml"])
      | .error e =>
          (.errRes request_id (-32603) "Tool execution failed" (some e),
            ["render_plantuml"])
  else if name = "graphviz.render" then
    match getTruthyText args with
    | none =>
        (.errRes request_id (-32602) "text is required for graphviz.render" none, [])
    | some text =>
      let fmt := getFormatArg args "png"
      match r.render_graphviz text fmt with
      | .ok data =>
          (.callRes request_id ("Diagram rendered successfully as " ++ contentTypeOf fmt)
            (contentTypeOf fmt) data, ["render_graphviz"])
      | .error e =>
          (.errRes request_id (-32603) "Tool execution failed" (some e),
            ["render_graphviz"])
  else if name = "mermaid.render" then
    match getTruthyText args with
    | none =>
        (.errRes request_id (-32602) "text is required for mermaid.render" none, [])
    | some text =>
      let fmt := getFormatArg args "png"
      match r.render_mermaid text fmt with
      | .ok data =>
          (.callRes request_id ("Diagram rendered successfully as " ++ contentTypeOf fmt)
            (contentTypeOf fmt) data, ["render_mermaid"])
      | .error e =>
          (.errRes request_id (-32603) "Tool execution failed" (some e),
            ["render_mermaid"])
  else
    (.errRes request_id (-32601) ("Unknown tool: " ++ name) none, [])

/-- `handle_sse_call_tool` (src/mcp_diagram_server.py lines 316-388):
the HTTP JSON-RPC `tools/call` dispatcher; the source duplicates the
stdio dispatcher with the same messages. -/
def handle_sse_call_tool {ι : Type} (r : Renderers) (request_id : Option ι)
    (name : String) (args : Args) : RpcMsg ι × List String :=
  if name = "plantuml.render" then
    match getTruthyText args with
    | none =>
        (.errRes request_id (-32602) "text is required for plantuml.render" none, [])
    | some text =>
      let fmt := getFormatArg args "svg"
      match r.render_plantuml text fmt with
      | .ok data =>
          (.callRes request_id ("Diagram rendered successfully as " ++ contentTypeOf fmt)
            (contentTypeOf fmt) data, ["render_plantuml"])
      | .error e =>
          (.errRes request_id (-32603) "Tool execution failed" (some e),
            ["render_plantuml"])
  else if name = "graphviz.render" then
    match getTruthyText args with
    | none =>
        (.errRes request_id (-32602) "text is required for graphviz.render" none, [])
    | some text =>
      let fmt := getFormatArg args "png"
      match r.render_graphviz text fmt with
      | .ok data =>
          (.callRes request_id ("Diagram rendered successfully as " ++ contentTypeOf fmt)
            (contentTypeOf fmt) data, ["render_graphviz"])
      | .error e =>
          (.errRes request_id (-32603) "Tool execution failed" (some e),
            ["render_graphviz"])
  else if name = "mermaid.render" then
    match getTruthyText args with
    | none =>
        (.errRes request_id (-32602) "text is required for mermaid.render" none, [])
    | some text =>
      let fmt := getFormatArg args "png"
      match r.render_mermaid text fmt with
      | .ok data =>
          (.callRes request_id ("Diagram rendered successfully as " ++ contentTypeOf fmt)
            (contentTypeOf fmt) data, ["render_mermaid"])
      | .error e =>
          (.errRes request_id (-32603) "Tool execution failed" (some e),
            ["render_mermaid"])
  else
    (.errRes request_id (-32601) ("Unknown tool: " ++ name) none, [])

/-- `handle_mcp_initialize` (src/mcp_diagram_server.py lines 474-493):
the static capabilities announcement written on stdio. -/
def handle_mcp_init {ι : Type} (request_id : Option ι) : RpcMsg ι :=
  .initRes request_id "2024-11-05" "mcp-diagram-server" "0.1.0"

/-- `handle_sse_initialize` (src/mcp_diagram_server.py lines 274-291):
the same static announcement on the HTTP JSON-RPC transport. -/
def handle_sse_init {ι : Type} (request_id : Option ι) : RpcMsg ι :=
  .initRes request_id "2024-11-05" "mcp-diagram-server" "0.1.0"

/-- `handle_mcp_list_tools` (src/mcp_diagram_server.py lines 495-516). -/
def handle_mcp_list_tools {ι : Type} (request_id : Option ι) : RpcMsg ι :=
  .toolsRes request_id
    (get_tools_list.map (fun tool => ⟨tool.name, tool.description, build_tool_schema tool⟩))

/-- `handle_sse_list_tools` (src/mcp_diagram_server.py lines 293-314). -/
def handle_sse_list_tools {ι : Type} (request_id : Option ι) : RpcMsg ι :=
  .toolsRes request_id
    (get_tools_list.map (fun tool => ⟨tool.name, tool.description, build_tool_schema tool⟩))

/-- `handle_mcp_ping` (src/mcp_diagram_server.py lines 573-579). -/
def handle_mcp_ping {ι : Type} (request_id : Option ι) : RpcMsg ι :=
  .pingRes request_id

/-- `handle_sse_ping` (src/mcp_diagram_server.py lines 390-396). -/
def handle_sse_ping {ι : Type} (request_id : Option ι) : RpcMsg ι :=
  .pingRes request_id

/-! ## The stdio loop `run_mcp_mode` and the HTTP JSON-RPC endpoint -/

/-- A parsed JSON-RPC request: `method`, `params.get("name")`,
`params.get("arguments", {})` and `request.get("id")`. -/
structure RpcRequest (ι : Type) where
  method : String
  paramName : String
  paramArgs : Args
  id : Option ι

/-- One line read from stdin by `run_mcp_mode`, after `json.loads`: a
line that is blank after stripping, a line that fails to parse as JSON
(with the decoder message `str(e)`), or a parsed request. -/
inductive InputLine (ι : Type) where
  | blank
  | malformed (e : String)
  | request (req : RpcRequest ι)

/-- The body of the `for line in sys.stdin` loop of `run_mcp_mode`
(src/mcp_diagram_server.py lines 584-625): the responses written to
stdout for one input line. -/
def run_mcp_step {ι : Type} (r : Renderers) : InputLine ι → List (RpcMsg ι)
  | .blank => []
  | .malformed e => [.errRes none (-32700) "Parse error" (some e)]
  | .request req =>
    match req.method with
    | "initialize" => [handle_mcp_init req.id]
    | "notifications/initialized" => []
    | "tools/list" => [handle_mcp_list_tools req.id]
    | "tools/call" => [(handle_mcp_call_tool r req.id req.paramName req.paramArgs).1]
    | "ping" => [handle_mcp_ping req.id]
    | m => [.errRes req.id (-32601) ("Method not found: " ++ m) none]

/-- `run_mcp_mode` (src/mcp_diagram_server.py lines 581-625): the
stdio loop over all input lines, in order, collecting everything
written to stdout. -/
def run_mcp_mode {ι : Type} (r : Renderers) : List (InputLine ι) → List (RpcMsg ι)
  | [] => []
  | l :: ls => run_mcp_step r l ++ run_mcp_mode r ls

/-- The HTTP response body of the `POST /sse` endpoint: either a
JSON-RPC response object, or the plain `{"status": "ok"}` body returned
when the handler produced no JSON-RPC response
(`return response if response else {"status": "ok"}`). -/
inductive SseHttpOut (ι : Type) where
  | rpc (msg : RpcMsg ι)
  | statusOk

/-- `mcp_sse_endpoint` (src/mcp_diagram_server.py lines 210-272) on a
request whose body parsed as JSON (the `json.JSONDecodeError` branch of
the endpoint is outside this model; no claim exercises it). -/
def mcp_sse_endpoint {ι : Type} (r : Renderers) (req : RpcRequest ι) : SseHttpOut ι :=
  match req.method with
  | "initialize" => .rpc (handle_sse_init req.id)
  | "notifications/initialized" => .statusOk
  | "tools/list" => .rpc (handle_sse_list_tools req.id)
  | "tools/call" => .rpc (handle_sse_call_tool r req.id req.paramName req.paramArgs).1
  | "ping" => .rpc (handle_sse_ping req.id)
  | m => .rpc (.errRes req.id (-32601) ("Method not found: " ++ m) none)

/-! ## Concrete renderer instances for witnesses -/

/-- Renderers that always succeed with empty image bytes. -/
def okRenderers : Renderers :=
  ⟨fun _ _ => .ok [], fun _ _ => .ok [], fun _ _ => .ok []⟩

/-- Renderers that always raise, with the given exception message. -/
def failRenderers (msg : String) : Renderers :=
  ⟨fun _ _ => .error msg, fun _ _ => .error msg, fun _ _ => .error msg⟩

/-! ## Claims about tool dispatch -/

/-- C3: on every transport, a `tools/call` (or `/call_tool`) for a
render tool whose arguments mapping has no "text" key yields the
InvalidArgument-class error (HTTP 400 on REST, JSON-RPC -32602 on both
JSON-RPC transports) and invokes no renderer adapter. -/
theorem c3_missing_text_rejected {ι : Type} (r : Renderers) (request_id : Option ι)
    (args : Args) (hm : getArg args "text" = none) :
    (call_tool r "plantuml.render" args = (.httpError 400 "text is required", []) ∧
      call_tool r "graphviz.render" args = (.httpError 400 "text is required", []) ∧
      call_tool r "mermaid.render" args = (.httpError 400 "text is required", [])) ∧
    (handle_mcp_call_tool r request_id "plantuml.render" args =
        (.errRes request_id (-32602) "text is required for plantuml.render" none, []) ∧
      handle_mcp_call_tool r request_id "graphviz.render" args =
        (.errRes request_id (-32602) "text is required for graphviz.render" none, []) ∧
      handle_mcp_call_tool r request_id "mermaid.render" args =
        (.errRes request_id (-32602) "text is required for mermaid.render" none, [])) ∧
    (handle_sse_call_tool r request_id "plantuml.render" args =
        (.errRes request_id (-32602) "text is required for plantuml.render" none, []) ∧
      handle_sse_call_tool r request_id "graphviz.render" args =
        (.errRes request_id (-32602) "text is required for graphviz.render" none, []) ∧
      handle_sse_call_tool r request_id "mermaid.render" args =
        (.errRes request_id (-32602) "text is required for mermaid.render" none, [])) := by
  have ht : getTruthyText args = none := by rw [getTruthyText, hm]
  refine ⟨⟨?_, ?_, ?_⟩, ⟨?_, ?_, ?_⟩, ⟨?_, ?_, ?_⟩⟩ <;>
    simp [call_tool, handle_mcp_call_tool, handle_sse_call_tool, ht]

/-- Witness for C3: arguments carrying only a "format" key. -/
theorem c3_missing_text_rejected_witness :
    getArg [("format", "png")] "text" = none ∧
    call_tool okRenderers "plantuml.render" [("format", "png")] =
      (.httpError 400 "text is required", []) ∧
    handle_mcp_call_tool okRenderers (some 1) "graphviz.render" [("format", "png")] =
      (.errRes (some 1) (-32602) "text is required for graphviz.render" none, []) ∧
    handle_sse_call_tool okRenderers (some 1) "mermaid.render" [("format", "png")] =
      (.errRes (some (1 : Nat)) (-32602) "text is required for mermaid.render" none, []) := by
  have h := c3_missing_text_rejected okRenderers (some (1 : Nat)) [("format", "png")] (by decide)
  exact ⟨by decide, h.1.1, h.2.1.2.1, h.2.2.2.2⟩

/-- C4: on every transport, a `tools/call` (or `/call_tool`) with a
tool name other than the three render tools yields the NotFound-class
error (HTTP 404 on REST, JSON-RPC -32601 on both JSON-RPC transports)
and invokes no renderer adapter. -/
theorem c4_unknown_tool {ι : Type} (r : Renderers) (request_id : Option ι)
    (name : String) (args : Args)
    (h1 : name ≠ "plantuml.render") (h2 : name ≠ "graphviz.render")
    (h3 : name ≠ "mermaid.render") :
    call_tool r name args = (.httpError 404 "tool not found", []) ∧
    handle_mcp_call_tool r request_id name args =
      (.errRes request_id (-32601) ("Unknown tool: " ++ name) none, []) ∧
    handle_sse_call_tool r request_id name args =
      (.errRes request_id (-32601) ("Unknown tool: " ++ name) none, []) := by
  refine ⟨?_, ?_, ?_⟩ <;>
    simp [call_tool, handle_mcp_call_tool, handle_sse_call_tool, h1, h2, h3]

/-- Witness for C4 at the unknown tool name "nosuch.tool". -/
theorem c4_unknown_tool_witness :
    call_tool okRenderers "nosuch.tool" [] = (.httpError 404 "tool not found", []) ∧
    handle_mcp_call_tool okRenderers (some 1) "nosuch.tool" [] =
      (.errRes (some 1) (-32601) ("Unknown tool: " ++ "nosuch.tool") none, []) ∧
    handle_sse_call_tool okRenderers (some 1) "nosuch.tool" [] =
      (.errRes (some (1 : Nat)) (-32601) ("Unknown tool: " ++ "nosuch.tool") none, []) :=
  c4_unknown_tool okRenderers (some 1) "nosuch.tool" []
    (by decide) (by decide) (by decide)

/-- C5: on every transport, an exception raised by a renderer adapter
is caught at the dispatch boundary and converted into a structured
error result (`ok: false` with the error string on REST, a JSON-RPC
error object with code -32603 on the JSON-RPC transports); the
dispatcher always returns a response. -/
theorem c5_adapter_failure_wrapped {ι : Type} (r : Renderers) (request_id : Option ι)
    (args : Args) (text e : String)
    (htext : getTruthyText args = some text)
    (hp : r.render_plantuml text (getFormatArg args "svg") = .error e)
    (hg : r.render_graphviz text (getFormatArg args "png") = .error e)
    (hmm : r.render_mermaid text (getFormatArg args "png") = .error e) :
    (call_tool r "plantuml.render" args = (.okFalse e, ["render_plantuml"]) ∧
      call_tool r "graphviz.render" args = (.okFalse e, ["render_graphviz"]) ∧
      call_tool r "mermaid.render" args = (.okFalse e, ["render_mermaid"])) ∧
    (handle_mcp_call_tool r request_id "plantuml.render" args =
        (.errRes request_id (-32603) "Tool execution failed" (some e),
          ["render_plantuml"]) ∧
      handle_mcp_call_tool r request_id "graphviz.render" args =
        (.errRes request_id (-32603) "Tool execution failed" (some e),
          ["render_graphviz"]) ∧
      handle_mcp_call_tool r request_id "mermaid.render" args =
        (.errRes request_id (-32603) "Tool execution failed" (some e),
          ["render_mermaid"])) ∧
    (handle_sse_call_tool r request_id "plantuml.render" args =
        (.errRes request_id (-32603) "Tool execution failed" (some e),
          ["render_plantuml"]) ∧
      handle_sse_call_tool r request_id "graphviz.render" args =
        (.errRes request_id (-32603) "Tool execution failed" (some e),
          ["render_graphviz"]) ∧
      handle_sse_call_tool r request_id "mermaid.render" args =
        (.errRes request_id (-32603) "Tool execution failed" (some e),
          ["render_mermaid"])) := by
  refine ⟨⟨?_, ?_, ?_⟩, ⟨?_, ?_, ?_⟩, ⟨?_, ?_, ?_⟩⟩ <;>
    simp [call_tool, handle_mcp_call_tool, handle_sse_call_tool, htext, hp, hg, hmm]

/-- Witness for C5 with always-raising renderers and message "boom". -/
theorem c5_adapter_failure_wrapped_witness :
    call_tool (failRenderers "boom") "plantuml.render" [("text", "x")] =
      (.okFalse "boom", ["render_plantuml"]) ∧
    handle_mcp_call_tool (failRenderers "boom") (some 1) "graphviz.render" [("text", "x")] =
      (.errRes (some 1) (-32603) "Tool execution failed" (some "boom"),
        ["render_graphviz"]) ∧
    handle_sse_call_tool (failRenderers "boom") (some 1) "mermaid.render" [("text", "x")] =
      (.errRes (some (1 : Nat)) (-32603) "Tool execution failed" (some "boom"),
        ["render_mermaid"]) := by
  have h := c5_adapter_failure_wrapped (failRenderers "boom") (some (1 : Nat))
    [("text", "x")] "x" "boom" (by decide) rfl rfl rfl
  exact ⟨h.1.1, h.2.1.2.1, h.2.2.2.2⟩

/-- C10: on every transport, a `tools/call` (or `/call_tool`) for a
render tool whose arguments bind "text" to the empty string is rejected
exactly like a missing text argument (the check is Python truthiness,
not key presence): HTTP 400 on REST, JSON-RPC -32602 on the JSON-RPC
transports, and no renderer adapter is invoked. -/
theorem c10_empty_text_rejected {ι : Type} (r : Renderers) (request_id : Option ι)
    (args : Args) (hm : getArg args "text" = some "") :
    (call_tool r "plantuml.render" args = (.httpError 400 "text is required", []) ∧
      call_tool r "graphviz.render" args = (.httpError 400 "text is required", []) ∧
      call_tool r "mermaid.render" args = (.httpError 400 "text is required", [])) ∧
    (handle_mcp_call_tool r request_id "plantuml.render" args =
        (.errRes request_id (-32602) "text is required for plantuml.render" none, []) ∧
      handle_mcp_call_tool r request_id "graphviz.render" args =
        (.errRes request_id (-32602) "text is required for graphviz.render" none, []) ∧
      handle_mcp_call_tool r request_id "mermaid.render" args =
        (.errRes request_id (-32602) "text is required for mermaid.render" none, [])) ∧
    (handle_sse_call_tool r request_id "plantuml.render" args =
        (.errRes request_id (-32602) "text is required for plantuml.render" none, []) ∧
      handle_sse_call_tool r request_id "graphviz.render" args =
        (.errRes request_id (-32602) "text is required for graphviz.render" none, []) ∧
      handle_sse_call_tool r request_id "mermaid.render" args =
        (.errRes request_id (-32602) "text is required for mermaid.render" none, [])) := by
  have ht : getTruthyText args = none := by rw [getTruthyText, hm]; simp
  refine ⟨⟨?_, ?_, ?_⟩, ⟨?_, ?_, ?_⟩, ⟨?_, ?_, ?_⟩⟩ <;>
    simp [call_tool, handle_mcp_call_tool, handle_sse_call_tool, ht]

/-- Witness for C10: arguments binding "text" to the empty string. -/
theorem c10_empty_text_rejected_witness :
    getArg [("text", "")] "text" = some "" ∧
    call_tool okRenderers "plantuml.render" [("text", "")] =
      (.httpError 400 "text is required", []) ∧
    handle_mcp_call_tool okRenderers (some 1) "graphviz.render" [("text", "")] =
      (.errRes (some 1) (-32602) "text is required for graphviz.render" none, []) ∧
    handle_sse_call_tool okRenderers (some 1) "mermaid.render" [("text", "")] =
      (.errRes (some (1 : Nat)) (-32602) "text is required for mermaid.render" none, []) := by
  have h := c10_empty_text_rejected okRenderers (some (1 : Nat)) [("text", "")] (by decide)
  exact ⟨by decide, h.1.1, h.2.1.2.1, h.2.2.2.2⟩

/-! ## Claims about the stdio loop and the notification method -/

/-- C6: wherever a malformed line occurs in the stdio input, the loop
writes exactly one error response for it — JSON-RPC code -32700 with a
null id — and goes on to process the remaining lines exactly as it
would have otherwise; the malformed line never terminates the loop. -/
theorem c6_malformed_line_continues {ι : Type} (r : Renderers)
    (pre post : List (InputLine ι)) (e : String) :
    run_mcp_mode r (pre ++ InputLine.malformed e :: post) =
      run_mcp_mode r pre ++
        (RpcMsg.errRes none (-32700) "Parse error" (some e) :: run_mcp_mode r post) := by
  induction pre with
  | nil => simp [run_mcp_mode, run_mcp_step]
  | cons l ls ih => simp [run_mcp_mode, ih]

/-- C8: a `notifications/initialized` message is fire-and-forget: the
stdio loop writes nothing to stdout for it (the surrounding lines are
processed as if it were absent), and the HTTP JSON-RPC endpoint
produces no JSON-RPC response for it, only the plain status body. -/
theorem c8_initialized_is_notification {ι : Type} (r : Renderers)
    (req : RpcRequest ι) (pre post : List (InputLine ι))
    (h : req.method = "notifications/initialized") :
    run_mcp_mode r (pre ++ InputLine.request req :: post) =
      run_mcp_mode r pre ++ run_mcp_mode r post ∧
    mcp_sse_endpoint r req = .statusOk := by
  obtain ⟨m, pn, pa, i⟩ := req
  simp only at h
  subst h
  constructor
  · induction pre with
    | nil => simp [run_mcp_mode, run_mcp_step]
    | cons l ls ih => simp [run_mcp_mode, ih]
  · rfl

/-- Witness for C8 at a concrete notification request. -/
theorem c8_initialized_is_notification_witness :
    run_mcp_mode okRenderers
        ([] ++ InputLine.request (⟨"notifications/initialized", "", [], none⟩ :
          RpcRequest Nat) :: []) =
      run_mcp_mode okRenderers [] ++ run_mcp_mode okRenderers [] ∧
    mcp_sse_endpoint okRenderers
        (⟨"notifications/initialized", "", [], none⟩ : RpcRequest Nat) = .statusOk :=
  c8_initialized_is_notification okRenderers ⟨"notifications/initialized", "", [], none⟩
    [] [] rfl

/-! ## Claim about the schema builders -/

/-- C9 counterexample: on the pair ("format", "int count") the claimed
vocabulary rule yields type "number" (the description contains "int"
and not "string"), but the inference of `build_tool_schema` yields "string"
because of its extra `or arg_name == "format"` clause. -/
theorem c9_schema_rule_counterexample :
    serverInferType "format" "int count" ≠ specArgType "int count" := by decide

/-- C9 amended: both schema builders assign the JSON-schema type by the
stated vocabulary rule applied to the lowercased description string,
except that `build_tool_schema` (unlike
`_build_properties_from_tool` in the wrapper) additionally forces type "string" for
any argument named "format", regardless of its description. -/
theorem c9_schema_rule_amended (argName argDesc : String) :
    serverInferType argName argDesc =
      (if argName = "format" then "string" else specArgType (strToLower argDesc)) ∧
    wrapperInferType argDesc = specArgType (strToLower argDesc) := by
  constructor
  · by_cases hn : argName = "format"
    · simp [serverInferType, hn]
    · have hb : (argName == "format") = false := by
        simp [hn]
      simp [serverInferType, specArgType, hn, hb]
  · rfl

